import Mathlib

/-!
Verification development for the snail viewer lifecycle/event core.

The development shallowly embeds:
* `snailviewer::uid` (include/snailviewer/uid.hpp): a 16-byte identifier whose
  comparison, equality and hash reinterpret the bytes as two 8-byte machine
  words (`long`, i.e. signed 64-bit little-endian on the LP64 target).
* `snailviewer::lifeline` and the three pointer roles
  (include/snailviewer/liveness.hpp, src/snailviewer/liveness_pthread.cpp):
  the lifeline's `void* object` plus the pthread read-write lock in its
  control block, as a labelled transition system over interleaved steps.
* `snailviewer::eventBus` / `eventHandler` (include/snailviewer/event.hpp):
  the generic broadcast wrapper and the typed handler's subscribe /
  unsubscribe / erased-dispatch dataflow.
-/

set_option autoImplicit false

namespace Snail

/-! ### uid (include/snailviewer/uid.hpp)

A `uid` is the raw 16-byte content of the C++ struct
`{ char module[5]; char author[3]; uidType type; char name[7]; }`.
We keep the bytes (values 0..255, the bit patterns of the chars) and compute
the two machine words that `reinterpret_cast<const long*>` exposes on the
little-endian LP64 platform the code targets. -/

/-- Little-endian value of a byte list: byte 0 is the least significant. -/
def le64 : List Nat → Nat
  | [] => 0
  | b :: t => b + 256 * le64 t

/-- Raw 16-byte content of a `snailviewer::uid`. -/
structure uid where
  bytes : List Nat
  length_eq : bytes.length = 16
  bytes_lt : ∀ b ∈ bytes, b < 256

/-- First 8-byte machine word (`reinterpret_cast<const long*>(this)[0]`),
as the unsigned bit pattern. -/
def uid.word0 (u : uid) : Nat := le64 (u.bytes.take 8)

/-- Second 8-byte machine word (`reinterpret_cast<const long*>(this)[1]`),
as the unsigned bit pattern. -/
def uid.word1 (u : uid) : Nat := le64 (u.bytes.drop 8)

/-- Value of a 64-bit pattern read as a signed `long` (two's complement). -/
def toSigned (w : Nat) : Int := if w < 2 ^ 63 then (w : Int) else (w : Int) - 2 ^ 64

/-- Embedding of `uid::operator<`: compare word 0 as signed `long`; only on equality
fall through to word 1. -/
def uid.ltOp (a b : uid) : Bool :=
  if toSigned a.word0 = toSigned b.word0
  then decide (toSigned a.word1 < toSigned b.word1)
  else decide (toSigned a.word0 < toSigned b.word0)

/-- Embedding of `uid::operator==`: both machine words equal (as signed `long`s). -/
def uid.eqOp (a b : uid) : Bool :=
  decide (toSigned a.word0 = toSigned b.word0) &&
  decide (toSigned a.word1 = toSigned b.word1)

/-- Embedding of `std::hash<snailviewer::uid>`: `(size_t)(v[0] ^ v[1])`; xor of the two
words' two's-complement patterns is xor of the unsigned patterns. -/
def uid.hashOp (u : uid) : Nat := u.word0 ^^^ u.word1

/-- Sample identifier: all zero bytes (kind discriminator `module`). -/
def uidZero : uid :=
  ⟨List.replicate 16 0, by decide, by decide⟩

/-- Sample identifier: the `SNAIL`/`HRL` event id pattern from the header docs. -/
def uidSample : uid :=
  ⟨[83, 78, 65, 73, 76, 72, 82, 76, 1, 70, 80, 78, 84, 73, 68, 88], by decide, by decide⟩

/-! ### lifeline (src/snailviewer/liveness_pthread.cpp)

A `void*` value is `Option Nat`, `none` standing for `nullptr`. The lifeline
state is its `object` field together with the state of the
`pthread_rwlock_t` in the control block: the number of shared (read) holders
and whether the exclusive (write) side is held. Threads interleave atomic
steps; `waitForDeath` is the step sequence `lockDeath; markDead; unlockDeath`,
where `lockDeath` (`pthread_rwlock_wrlock`) can only fire once no shared
holder remains. -/

/-- A `void*` value: `none` is `nullptr`. -/
abbrev Ptr := Option Nat

/-- State of one `lifeline`: the stored raw object reference and the
read-write lock of the control block. -/
structure lifeline where
  object : Ptr
  readers : Nat
  writerHeld : Bool
deriving Repr, DecidableEq

/-- Embedding of `lifeline::lifeline(void* object)`: stores the object; the freshly
initialized lock is unheld. -/
def lifeline.init (thiz : Nat) : lifeline := ⟨some thiz, 0, false⟩

/-- Embedding of `lifeline::retain()`: `pthread_rwlock_tryrdlock` fails fast exactly when
the exclusive side is held (returning `nullptr` and leaving the lock alone);
otherwise the shared count goes up and the current `object` is returned. -/
def lifeline.retain (s : lifeline) : Ptr × lifeline :=
  if s.writerHeld then (none, s)
  else (s.object, { s with readers := s.readers + 1 })

/-- Embedding of `lifeline::release()`: `pthread_rwlock_unlock` dropping one shared hold. -/
def lifeline.release (s : lifeline) : lifeline :=
  { s with readers := s.readers - 1 }

/-- Atomic steps threads can perform on one lifeline. `tryRetain` and
`release` come from guards; `lockDeath`, `markDead` and `unlockDeath` are the
three statements of `lifeline::waitForDeath()` run by the owner. -/
inductive Act where
  | tryRetain
  | release
  | lockDeath
  | markDead
  | unlockDeath
deriving Repr, DecidableEq

/-- One interleaved step: `none` when the action is blocked (a `release` with
no shared holder, the writer lock when holders remain or it is already held,
or a `waitForDeath` statement before its `wrlock` succeeded). `tryRetain` is
enabled in every state: it never blocks. -/
def step (a : Act) (s : lifeline) : Option lifeline :=
  match a with
  | .tryRetain => some (lifeline.retain s).2
  | .release => if 0 < s.readers then some s.release else none
  | .lockDeath =>
      if s.readers = 0 ∧ s.writerHeld = false
      then some { s with writerHeld := true } else none
  | .markDead => if s.writerHeld then some { s with object := none } else none
  | .unlockDeath => if s.writerHeld then some { s with writerHeld := false } else none

/-- Run a list of steps; `none` as soon as one is blocked. -/
def run (l : List Act) (s : lifeline) : Option lifeline :=
  match l with
  | [] => some s
  | a :: t => (step a s).bind (run t)

/-- States reachable from a freshly constructed `lifeline(thiz)` under
arbitrary interleavings. -/
inductive Reachable (thiz : Nat) : lifeline → Prop where
  | init : Reachable thiz (lifeline.init thiz)
  | next (a : Act) {s t : lifeline} :
      Reachable thiz s → step a s = some t → Reachable thiz t

/-- Runs along which, at every point where a step fires, at least one shared
holder is present — the states traversed while some guard is in scope. -/
inductive ScopedRun : lifeline → List Act → lifeline → Prop where
  | nil (s : lifeline) : ScopedRun s [] s
  | cons {s t u : lifeline} {a : Act} {l : List Act} :
      0 < s.readers → step a s = some t → ScopedRun t l u → ScopedRun s (a :: l) u

/-! ### The three pointer roles (include/snailviewer/liveness.hpp)

`living_ptr`, `liveness_ptr` and `holder_ptr` each carry a
`std::shared_ptr<lifeline> life`; we model whether that member is non-null,
the state of the single lifeline being passed around explicitly. -/

/-- Embedding of `living_ptr`: its only datum is whether `life` is non-null. -/
structure living_ptr where
  hasLife : Bool
deriving Repr, DecidableEq

/-- Embedding of `living_ptr()` (the empty eye-candy constructor): null `life`. -/
def living_ptr.default : living_ptr := ⟨false⟩

/-- Embedding of `living_ptr::living_ptr(living_ptr&&)`: member `life` is
default-initialized to null, then swapped with the source. Returns
(destination, source after the move). -/
def living_ptr.moveCtor (src : living_ptr) : living_ptr × living_ptr :=
  (⟨src.hasLife⟩, ⟨false⟩)

/-- Embedding of `living_ptr::~living_ptr()`: runs `waitForDeath` only when `life` is
non-null; `none` when the teardown would block forever. -/
def living_ptr.dtor (o : living_ptr) (s : lifeline) : Option lifeline :=
  if o.hasLife then run [Act.lockDeath, Act.markDead, Act.unlockDeath] s else some s

/-- Embedding of `liveness_ptr`: again only the nullness of its `life` matters. -/
structure liveness_ptr where
  hasLife : Bool
deriving Repr, DecidableEq

/-- Embedding of `liveness_ptr(const living_ptr&)`: copies the `life` member. -/
def liveness_ptr.fromLiving (o : living_ptr) : liveness_ptr := ⟨o.hasLife⟩

/-- Embedding of `liveness_ptr(const liveness_ptr&)` (polymorphic cast): copies `life`. -/
def liveness_ptr.fromLiveness (lp : liveness_ptr) : liveness_ptr := ⟨lp.hasLife⟩

/-- Embedding of `holder_ptr`: the `life` member's nullness and the captured `void* ptr`. -/
structure holder_ptr where
  hasLife : Bool
  ptr : Ptr
deriving Repr, DecidableEq

/-- Embedding of `holder_ptr::holder_ptr(const liveness_ptr&)`: `ptr` starts null and is
overwritten with `life->retain()` only when `life` is non-null. Returns the
guard and the lifeline state after the attempt. -/
def holder_ptr.ctor (lp : liveness_ptr) (s : lifeline) : holder_ptr × lifeline :=
  if lp.hasLife then
    let r := lifeline.retain s
    (⟨true, r.1⟩, r.2)
  else (⟨false, none⟩, s)

/-- Embedding of `holder_ptr::~holder_ptr()`: calls `life->release()` only when both
`life` and `ptr` are non-null. -/
def holder_ptr.dtor (h : holder_ptr) (s : lifeline) : lifeline :=
  if h.hasLife then (if h.ptr ≠ none then s.release else s) else s

/-- Embedding of `holder_ptr::operator objectType*()`: the stored raw pointer. -/
def holder_ptr.conv (h : holder_ptr) : Ptr := h.ptr

/-- Embedding of `holder_ptr::holder_ptr(holder_ptr&&)`: member `life` is
default-initialized to null and then swapped with the source; member `ptr`
is a plain `void*` left uninitialized (its indeterminate content is the
parameter `junk`) and is not swapped. Returns (destination, source after the
move). -/
def holder_ptr.moveCtor (junk : Ptr) (src : holder_ptr) : holder_ptr × holder_ptr :=
  (⟨src.hasLife, junk⟩, ⟨false, src.ptr⟩)

/-! ### eventBus and eventHandler (include/snailviewer/event.hpp)

Event payloads live in an arbitrary type `α`. An event kind's static
`eventType::id()` is a fixed `uid` value. The `reinterpret_cast` pair
`const eventType* → const void* → const eventType*` performed between
`typedEventHolder::get()` and `eventHandler<eventType>::handle(const void*)`
round-trips at the same type, so the erased pointer is modelled as the
typed value it points at. Concrete buses are abstract (pure virtual), so
bus interactions are recorded as the calls made into them. -/

/-- Embedding of `eventConcept<eventType>::id()`: forwards the event kind's static id. -/
def eventConcept.kindId (idOfKind : uid) : uid := idOfKind

/-- The local `typedEventHolder` that `eventBus::broadcast<eventType>` builds:
it stores a copy of the event. -/
structure typedEventHolder (α : Type) where
  event : α
deriving DecidableEq

/-- Embedding of `typedEventHolder::get()`: a pointer to the stored copy. -/
def typedEventHolder.get {α : Type} (h : typedEventHolder α) : α := h.event

/-- The generic `eventBus::broadcast<eventType>(event)`: the calls it makes to
the abstract `broadcast(uid, holder)` — its body contains exactly one, with
the id resolved through `eventConcept<eventType>::id()` and a holder freshly
built from the event value. -/
def eventBus.broadcastTyped {α : Type} (idOfKind : uid) (event : α) :
    List (uid × typedEventHolder α) :=
  [(eventConcept.kindId idOfKind, ⟨event⟩)]

/-- A call made by an `eventHandler` into its bus. Buses are identified by a
token `bus`, handler objects by a token `handler` (the `this` argument). -/
inductive busCall where
  | subscribeCall (bus : Nat) (eid : uid) (handler : Nat)
  | unsubscribeCall (bus : Nat) (eid : uid) (handler : Nat)

/-- A typed `eventHandler<eventType>`: the bus bound by the reference member
`ebus` (a C++ reference, set in the member initializer list and never
reseatable), the event kind's static id, and the user-implemented typed
`handle(const eventType&)` body. -/
structure eventHandler (α β : Type) where
  ebus : Nat
  kindId : uid
  onEvent : α → β

/-- Embedding of `eventHandler::eventHandler(eventBus&)`: binds `ebus` and subscribes
itself under `eventConcept<eventType>::id()`. Returns the handler and the
call made into the bus. -/
def eventHandler.construct {α β : Type} (bus : Nat) (idOfKind : uid)
    (onEvent : α → β) (self : Nat) : eventHandler α β × busCall :=
  (⟨bus, idOfKind, onEvent⟩, .subscribeCall bus (eventConcept.kindId idOfKind) self)

/-- Embedding of `eventHandler::~eventHandler()`: unsubscribes from the bound bus under
the same static id. -/
def eventHandler.destruct {α β : Type} (h : eventHandler α β) (self : Nat) : busCall :=
  .unsubscribeCall h.ebus (eventConcept.kindId h.kindId) self

/-- Embedding of `eventHandler<eventType>::handle(const void*)`: downcasts the erased
pointer back to the event kind and invokes the typed `handle`. -/
def eventHandler.handleErased {α β : Type} (h : eventHandler α β) (evptr : α) : β :=
  h.onEvent evptr

/-!
## Theorems

Supporting lemmas for the uid words and the lifeline transition system come
first, then one theorem per specification claim.
-/

/-- Bound on a little-endian byte value: fewer than `256 ^ length`. -/
theorem le64_lt (l : List Nat) (hb : ∀ b ∈ l, b < 256) : le64 l < 256 ^ l.length := by
  induction l with
  | nil => simp [le64]
  | cons b t ih =>
    have hbt : ∀ x ∈ t, x < 256 := fun x hx => hb x (List.mem_cons_of_mem b hx)
    have ht := ih hbt
    have hb' : b < 256 := hb b (List.mem_cons_self b t)
    have : 256 * le64 t + 256 ≤ 256 * 256 ^ t.length := by
      have := Nat.mul_le_mul_left 256 (Nat.succ_le_of_lt ht)
      omega
    simp only [le64, List.length_cons, pow_succ]
    omega

/-- The function `le64` is injective on byte lists of equal length. -/
theorem le64_inj (l₁ l₂ : List Nat) (hlen : l₁.length = l₂.length)
    (hb₁ : ∀ b ∈ l₁, b < 256) (hb₂ : ∀ b ∈ l₂, b < 256)
    (h : le64 l₁ = le64 l₂) : l₁ = l₂ := by
  induction l₁ generalizing l₂ with
  | nil => cases l₂ with
    | nil => rfl
    | cons b t => simp at hlen
  | cons b₁ t₁ ih =>
    cases l₂ with
    | nil => simp at hlen
    | cons b₂ t₂ =>
      have hb₁' : b₁ < 256 := hb₁ b₁ (List.mem_cons_self b₁ t₁)
      have hb₂' : b₂ < 256 := hb₂ b₂ (List.mem_cons_self b₂ t₂)
      simp only [le64] at h
      have hbeq : b₁ = b₂ := by omega
      have hteq : le64 t₁ = le64 t₂ := by omega
      have htail := ih t₂ (by simpa using hlen)
        (fun x hx => hb₁ x (List.mem_cons_of_mem b₁ hx))
        (fun x hx => hb₂ x (List.mem_cons_of_mem b₂ hx)) hteq
      rw [hbeq, htail]

/-- The map `toSigned` is injective on 64-bit patterns. -/
theorem toSigned_inj {x y : Nat} (hx : x < 2 ^ 64) (hy : y < 2 ^ 64)
    (h : toSigned x = toSigned y) : x = y := by
  unfold toSigned at h
  split_ifs at h <;> omega

theorem uid.word0_lt (u : uid) : u.word0 < 2 ^ 64 := by
  have hlen : (u.bytes.take 8).length = 8 := by
    rw [List.length_take, u.length_eq]; omega
  have := le64_lt (u.bytes.take 8)
    (fun b hb => u.bytes_lt b (List.mem_of_mem_take hb))
  rw [hlen] at this
  simpa using this

theorem uid.word1_lt (u : uid) : u.word1 < 2 ^ 64 := by
  have hlen : (u.bytes.drop 8).length = 8 := by
    rw [List.length_drop, u.length_eq]
  have := le64_lt (u.bytes.drop 8)
    (fun b hb => u.bytes_lt b (List.mem_of_mem_drop hb))
  rw [hlen] at this
  simpa using this

/-- Equality of the two machine words pins down the 16 bytes. -/
theorem uid.words_inj (a b : uid) (h0 : a.word0 = b.word0) (h1 : a.word1 = b.word1) :
    a.bytes = b.bytes := by
  have htake : a.bytes.take 8 = b.bytes.take 8 := by
    refine le64_inj _ _ ?_ ?_ ?_ h0
    · rw [List.length_take, List.length_take, a.length_eq, b.length_eq]
    · exact fun x hx => a.bytes_lt x (List.mem_of_mem_take hx)
    · exact fun x hx => b.bytes_lt x (List.mem_of_mem_take hx)
  have hdrop : a.bytes.drop 8 = b.bytes.drop 8 := by
    refine le64_inj _ _ ?_ ?_ ?_ h1
    · rw [List.length_drop, List.length_drop, a.length_eq, b.length_eq]
    · exact fun x hx => a.bytes_lt x (List.mem_of_mem_drop hx)
    · exact fun x hx => b.bytes_lt x (List.mem_of_mem_drop hx)
  calc a.bytes = a.bytes.take 8 ++ a.bytes.drop 8 := (List.take_append_drop 8 a.bytes).symm
    _ = b.bytes.take 8 ++ b.bytes.drop 8 := by rw [htake, hdrop]
    _ = b.bytes := List.take_append_drop 8 b.bytes

/-- The test `uid::operator==` holds exactly on equal 16-byte content. -/
theorem uid_eqOp_iff_bytes {a b : uid} : uid.eqOp a b = true ↔ a.bytes = b.bytes := by
  constructor
  · intro h
    simp only [uid.eqOp, Bool.and_eq_true, decide_eq_true_eq] at h
    exact uid.words_inj a b
      (toSigned_inj a.word0_lt b.word0_lt h.1)
      (toSigned_inj a.word1_lt b.word1_lt h.2)
  · intro h
    have h0 : a.word0 = b.word0 := by unfold uid.word0; rw [h]
    have h1 : a.word1 = b.word1 := by unfold uid.word1; rw [h]
    simp [uid.eqOp, h0, h1]

/-- The order `uid::operator<` is transitive. -/
theorem uid_ltOp_trans {a b c : uid} (hab : uid.ltOp a b = true)
    (hbc : uid.ltOp b c = true) : uid.ltOp a c = true := by
  unfold uid.ltOp at hab hbc ⊢
  by_cases h1 : toSigned a.word0 = toSigned b.word0 <;>
      by_cases h2 : toSigned b.word0 = toSigned c.word0
  · rw [if_pos h1] at hab
    rw [if_pos h2] at hbc
    rw [if_pos (h1.trans h2)]
    simp only [decide_eq_true_eq] at hab hbc ⊢
    exact lt_trans hab hbc
  · rw [if_neg h2] at hbc
    simp only [decide_eq_true_eq] at hbc
    have hac : toSigned a.word0 < toSigned c.word0 := h1 ▸ hbc
    rw [if_neg (ne_of_lt hac)]
    simpa using hac
  · rw [if_neg h1] at hab
    simp only [decide_eq_true_eq] at hab
    have hac : toSigned a.word0 < toSigned c.word0 := h2 ▸ hab
    rw [if_neg (ne_of_lt hac)]
    simpa using hac
  · rw [if_neg h1] at hab
    rw [if_neg h2] at hbc
    simp only [decide_eq_true_eq] at hab hbc
    have hac : toSigned a.word0 < toSigned c.word0 := lt_trans hab hbc
    rw [if_neg (ne_of_lt hac)]
    simpa using hac

/-- The lock invariant — write side held only with no shared holder — is
preserved by every step. -/
theorem step_writer_inv {a : Act} {s t : lifeline} (hstep : step a s = some t)
    (hs : s.writerHeld = true → s.readers = 0) :
    t.writerHeld = true → t.readers = 0 := by
  cases a <;> simp only [step, lifeline.retain, lifeline.release] at hstep
  case tryRetain =>
    by_cases hw : s.writerHeld = true
    · rw [if_pos hw] at hstep
      cases hstep
      exact hs
    · rw [if_neg hw] at hstep
      cases hstep
      intro h
      exact absurd h hw
  case release =>
    by_cases hc : 0 < s.readers
    · rw [if_pos hc] at hstep
      cases hstep
      intro h
      have h0 := hs h
      show s.readers - 1 = 0
      omega
    · rw [if_neg hc] at hstep
      cases hstep
  case lockDeath =>
    by_cases hc : s.readers = 0 ∧ s.writerHeld = false
    · rw [if_pos hc] at hstep
      cases hstep
      intro _
      exact hc.1
    · rw [if_neg hc] at hstep
      cases hstep
  case markDead =>
    by_cases hc : s.writerHeld = true
    · rw [if_pos hc] at hstep
      cases hstep
      exact hs
    · rw [if_neg hc] at hstep
      cases hstep
  case unlockDeath =>
    by_cases hc : s.writerHeld = true
    · rw [if_pos hc] at hstep
      cases hstep
      intro h
      simp at h
    · rw [if_neg hc] at hstep
      cases hstep

/-- In every reachable state the write side is held only with no shared
holder. -/
theorem reachable_writer_readers {thiz : Nat} {s : lifeline}
    (h : Reachable thiz s) : s.writerHeld = true → s.readers = 0 := by
  induction h with
  | init => intro hw; simp [lifeline.init] at hw
  | next a hre hstep ih => exact step_writer_inv hstep ih

/-- The stored reference only ever holds the original object or null. -/
theorem step_object_inv {thiz : Nat} {a : Act} {s t : lifeline}
    (hstep : step a s = some t)
    (hs : s.object = some thiz ∨ s.object = none) :
    t.object = some thiz ∨ t.object = none := by
  cases a <;> simp only [step, lifeline.retain, lifeline.release] at hstep
  case tryRetain =>
    by_cases hw : s.writerHeld = true
    · rw [if_pos hw] at hstep; cases hstep; exact hs
    · rw [if_neg hw] at hstep; cases hstep; exact hs
  case release =>
    by_cases hc : 0 < s.readers
    · rw [if_pos hc] at hstep; cases hstep; exact hs
    · rw [if_neg hc] at hstep; cases hstep
  case lockDeath =>
    by_cases hc : s.readers = 0 ∧ s.writerHeld = false
    · rw [if_pos hc] at hstep; cases hstep; exact hs
    · rw [if_neg hc] at hstep; cases hstep
  case markDead =>
    by_cases hc : s.writerHeld = true
    · rw [if_pos hc] at hstep; cases hstep; exact Or.inr rfl
    · rw [if_neg hc] at hstep; cases hstep
  case unlockDeath =>
    by_cases hc : s.writerHeld = true
    · rw [if_pos hc] at hstep; cases hstep; exact hs
    · rw [if_neg hc] at hstep; cases hstep

/-- In every reachable state the stored reference is the original object or
null — never a third (dangling) value. -/
theorem reachable_object {thiz : Nat} {s : lifeline} (h : Reachable thiz s) :
    s.object = some thiz ∨ s.object = none := by
  induction h with
  | init => exact Or.inl rfl
  | next a hre hstep ih => exact step_object_inv hstep ih

/-- While the write side is not held, no step changes the stored reference
(in particular the death transition `markDead` is blocked). -/
theorem step_object_of_readers {a : Act} {s t : lifeline}
    (hstep : step a s = some t)
    (hw : s.writerHeld = false) : t.object = s.object := by
  have hw' : ¬ s.writerHeld = true := by simp [hw]
  cases a <;> simp only [step, lifeline.retain, lifeline.release] at hstep
  case tryRetain =>
    rw [if_neg hw'] at hstep; cases hstep; rfl
  case release =>
    by_cases hc : 0 < s.readers
    · rw [if_pos hc] at hstep; cases hstep; rfl
    · rw [if_neg hc] at hstep; cases hstep
  case lockDeath =>
    by_cases hc : s.readers = 0 ∧ s.writerHeld = false
    · rw [if_pos hc] at hstep; cases hstep; rfl
    · rw [if_neg hc] at hstep; cases hstep
  case markDead =>
    rw [if_neg hw'] at hstep
    cases hstep
  case unlockDeath =>
    rw [if_neg hw'] at hstep
    cases hstep

/-- A null stored reference stays null across any single step. -/
theorem step_dead {a : Act} {s t : lifeline} (hstep : step a s = some t)
    (hd : s.object = none) : t.object = none := by
  cases a <;> simp only [step, lifeline.retain, lifeline.release] at hstep
  case tryRetain =>
    by_cases hw : s.writerHeld = true
    · rw [if_pos hw] at hstep; cases hstep; exact hd
    · rw [if_neg hw] at hstep; cases hstep; exact hd
  case release =>
    by_cases hc : 0 < s.readers
    · rw [if_pos hc] at hstep; cases hstep; exact hd
    · rw [if_neg hc] at hstep; cases hstep
  case lockDeath =>
    by_cases hc : s.readers = 0 ∧ s.writerHeld = false
    · rw [if_pos hc] at hstep; cases hstep; exact hd
    · rw [if_neg hc] at hstep; cases hstep
  case markDead =>
    by_cases hc : s.writerHeld = true
    · rw [if_pos hc] at hstep; cases hstep; rfl
    · rw [if_neg hc] at hstep; cases hstep
  case unlockDeath =>
    by_cases hc : s.writerHeld = true
    · rw [if_pos hc] at hstep; cases hstep; exact hd
    · rw [if_neg hc] at hstep; cases hstep

/-- Inversion of a non-blocked run on its first step. -/
theorem run_cons_inv {a : Act} {l : List Act} {s u : lifeline}
    (h : run (a :: l) s = some u) : ∃ t, step a s = some t ∧ run l t = some u := by
  cases hh : step a s with
  | none => rw [run, hh] at h; simp at h
  | some t => rw [run, hh] at h; exact ⟨t, rfl, by simpa using h⟩

/-- A null stored reference stays null across any run of steps. -/
theorem run_dead {l : List Act} {s u : lifeline} (hrun : run l s = some u)
    (hd : s.object = none) : u.object = none := by
  induction l generalizing s with
  | nil =>
    simp only [run, Option.some.injEq] at hrun
    subst hrun; exact hd
  | cons a t ih =>
    obtain ⟨s', hstep, hrest⟩ := run_cons_inv hrun
    exact ih hrest (step_dead hstep hd)

/-- Along a scoped run from a reachable state the stored reference never
changes: a shared holder excludes the death transition. -/
theorem scopedRun_object {thiz : Nat} {s u : lifeline} {l : List Act}
    (hrun : ScopedRun s l u) : Reachable thiz s → u.object = s.object := by
  induction hrun with
  | nil => intro _; rfl
  | cons hr hstep htail ih =>
    rename_i s t u a l
    intro hre
    have hw : s.writerHeld = false := by
      cases hb : s.writerHeld
      · rfl
      · have h0 := reachable_writer_readers hre hb
        omega
    have hobj := step_object_of_readers hstep hw
    have hret : Reachable thiz t := Reachable.next a hre hstep
    rw [ih hret, hobj]

/-- Completing `waitForDeath` (a non-empty owner's destructor) nulls the
stored reference. -/
theorem dtor_dead {s0 s : lifeline} (h : living_ptr.dtor ⟨true⟩ s0 = some s) :
    s.object = none := by
  have h' : run [Act.lockDeath, Act.markDead, Act.unlockDeath] s0 = some s := by
    simpa [living_ptr.dtor] using h
  obtain ⟨t1, h1, hr1⟩ := run_cons_inv h'
  obtain ⟨t2, h2, hr2⟩ := run_cons_inv hr1
  have h2' : t2.object = none := by
    simp only [step] at h2
    by_cases hc : t1.writerHeld = true
    · rw [if_pos hc] at h2; cases h2; rfl
    · rw [if_neg hc] at h2; cases h2
  exact run_dead hr2 h2'

/-! ## Claim theorems -/

/-- C1: once an owner's teardown (`waitForDeath`) has completed, the stored
reference is null, it stays null under every further interleaving of
`retain`, `release` and teardown steps, and every guard acquired on the dead
lifeline is inert: its pointer conversion is null. The Dead state is
terminal. -/
theorem dead_is_terminal (lp : liveness_ptr) {l : List Act} {s0 s u : lifeline}
    (hdtor : living_ptr.dtor ⟨true⟩ s0 = some s)
    (hrun : run l s = some u) :
    u.object = none ∧ (holder_ptr.ctor lp u).1.conv = none := by
  have hs := dtor_dead hdtor
  have hu := run_dead hrun hs
  refine ⟨hu, ?_⟩
  by_cases hl : lp.hasLife = true <;> by_cases hw : u.writerHeld = true <;>
    simp [holder_ptr.ctor, holder_ptr.conv, lifeline.retain, hl, hw, hu]

/-- Witness for C1: a concrete completed teardown from `lifeline(5)`,
followed by one interleaved acquisition attempt. -/
theorem dead_is_terminal_witness :
    (lifeline.mk none 1 false).object = none ∧
    (holder_ptr.ctor ⟨true⟩ (lifeline.mk none 1 false)).1.conv = none :=
  @dead_is_terminal ⟨true⟩ [Act.tryRetain] (lifeline.init 5)
    (lifeline.mk none 0 false) (lifeline.mk none 1 false)
    (by decide) (by decide)

/-- C2: a guard whose acquisition succeeds (`retain` returns non-null)
before the owner's teardown completes captured the original live object
(never a dangling third value), and the stored reference still equals that
non-null pointer after any interleaved steps taken while some shared holder
remains — the guard's own hold keeps `readers` positive for its entire
scope, so the teardown cannot null the reference meanwhile. -/
theorem guard_scope_object_valid {thiz p : Nat} {s0 s1 u : lifeline} {l : List Act}
    (hre : Reachable thiz s0) (hret : lifeline.retain s0 = (some p, s1))
    (hrun : ScopedRun s1 l u) :
    p = thiz ∧ s1.object = some p ∧ u.object = some p := by
  have hw : s0.writerHeld = false := by
    cases hb : s0.writerHeld
    · rfl
    · simp [lifeline.retain, hb] at hret
  have hret' := hret
  rw [lifeline.retain, if_neg (by simp [hw])] at hret'
  have hobj : s0.object = some p := congrArg Prod.fst hret'
  have hs1 : s1 = { s0 with readers := s0.readers + 1 } :=
    (congrArg Prod.snd hret').symm
  have hp : p = thiz := by
    rcases reachable_object hre with h | h
    · rw [hobj] at h
      exact Option.some.inj h
    · rw [hobj] at h
      cases h
  have hs1obj : s1.object = some p := by rw [hs1]; exact hobj
  have hre1 : Reachable thiz s1 := by
    refine Reachable.next Act.tryRetain hre ?_
    simp only [step, lifeline.retain, if_neg (show ¬ s0.writerHeld = true by simp [hw])]
    rw [hs1]
  exact ⟨hp, hs1obj, (scopedRun_object hrun hre1).trans hs1obj⟩

/-- Witness for C2: on a fresh `lifeline(5)` a successful acquisition
returns pointer 5, and after a further interleaved acquisition (shared count
stays positive) the stored reference is still 5. -/
theorem guard_scope_object_valid_witness :
    (5 : Nat) = 5 ∧ (lifeline.mk (some 5) 1 false).object = some 5 ∧
      (lifeline.mk (some 5) 2 false).object = some 5 :=
  @guard_scope_object_valid 5 5 (lifeline.init 5) (lifeline.mk (some 5) 1 false)
    (lifeline.mk (some 5) 2 false) [Act.tryRetain] Reachable.init (by decide)
    (@ScopedRun.cons (lifeline.mk (some 5) 1 false) (lifeline.mk (some 5) 2 false)
      (lifeline.mk (some 5) 2 false) Act.tryRetain []
      (by decide) (by decide) (ScopedRun.nil _))

/-- C3: guard acquisition never blocks and is fail-fast: even in a state
where the exclusive (death) side of the lock is held, the `tryRetain` step is
enabled (the model's `retain`, like the `noexcept` C++ function, always
returns rather than waiting or raising), it returns null immediately while
leaving the lock untouched, and the resulting guard is inert — the failure is
observable exactly as the guard's null pointer conversion. -/
theorem retain_failfast (s : lifeline) (lp : liveness_ptr)
    (hw : s.writerHeld = true) :
    (step Act.tryRetain s).isSome = true ∧
    lifeline.retain s = (none, s) ∧
    (holder_ptr.ctor lp s).1.conv = none := by
  refine ⟨by simp [step], by simp [lifeline.retain, hw], ?_⟩
  by_cases hl : lp.hasLife = true <;>
    simp [holder_ptr.ctor, holder_ptr.conv, lifeline.retain, hw, hl]

/-- Witness for C3 at a concrete write-locked (dying) lifeline. -/
theorem retain_failfast_witness :
    (step Act.tryRetain (lifeline.mk (some 7) 0 true)).isSome = true ∧
    lifeline.retain (lifeline.mk (some 7) 0 true) =
      (none, lifeline.mk (some 7) 0 true) ∧
    (holder_ptr.ctor ⟨true⟩ (lifeline.mk (some 7) 0 true)).1.conv = none :=
  retain_failfast (lifeline.mk (some 7) 0 true) ⟨true⟩ rfl

/-- C4 (code-bug exhibit): on a lifeline whose owner's teardown has completed
(reached by the explicit run below: `object` null, lock free), constructing a
guard takes the shared side of the lock — `tryrdlock` succeeds and `readers`
goes 0 to 1 — while `retain` returns null; the destructor of the resulting
guard releases only when the captured pointer is non-null, so it performs no
release and the shared hold leaks: one successful shared acquisition, zero
releases, and the lock does not return to its pre-acquisition state. -/
theorem guard_after_death_leaks_shared_lock :
    run [Act.lockDeath, Act.markDead, Act.unlockDeath] (lifeline.init 5) =
      some (lifeline.mk none 0 false) ∧
    (holder_ptr.ctor ⟨true⟩ (lifeline.mk none 0 false)).2.readers = 1 ∧
    (holder_ptr.ctor ⟨true⟩ (lifeline.mk none 0 false)).1.conv = none ∧
    holder_ptr.dtor (holder_ptr.ctor ⟨true⟩ (lifeline.mk none 0 false)).1
        (holder_ptr.ctor ⟨true⟩ (lifeline.mk none 0 false)).2 =
      lifeline.mk none 1 false :=
  ⟨by decide, by decide, by decide, by decide⟩

/-- C5 (code-bug exhibit): `holder_ptr`'s move constructor swaps only the
`life` member. The destination's `ptr` is left holding whatever indeterminate
value (`junk`) the uninitialized member had, and the source keeps its
pointer. Moving from a guard holding pointer 5: the source still converts to
5 afterwards (it is not inert), and with `junk = none` the destination
converts to null instead of 5 — the claim fails on both counts. -/
theorem move_ctor_does_not_transfer_pointer :
    (∀ junk : Ptr, (holder_ptr.moveCtor junk ⟨true, some 5⟩).2.conv = some 5) ∧
    holder_ptr.moveCtor none ⟨true, some 5⟩ = (⟨true, none⟩, ⟨false, some 5⟩) ∧
    (holder_ptr.moveCtor none ⟨true, some 5⟩).1.conv ≠ some 5 :=
  ⟨fun _ => rfl, by decide, by decide⟩

/-- C6: `uid::operator==` (both 8-byte machine words of the 16-byte layout
equal) implies equal `std::hash<uid>` values (xor of the two words). -/
theorem uid_eq_implies_hash_eq (a b : uid) (h : uid.eqOp a b = true) :
    uid.hashOp a = uid.hashOp b := by
  simp only [uid.eqOp, Bool.and_eq_true, decide_eq_true_eq] at h
  have e0 := toSigned_inj a.word0_lt b.word0_lt h.1
  have e1 := toSigned_inj a.word1_lt b.word1_lt h.2
  simp [uid.hashOp, e0, e1]

/-- Witness for C6 at a concrete identifier. -/
theorem uid_eq_implies_hash_eq_witness :
    uid.eqOp uidSample uidSample = true ∧
    uid.hashOp uidSample = uid.hashOp uidSample :=
  ⟨by decide, uid_eq_implies_hash_eq uidSample uidSample (by decide)⟩

/-- C7: `uid::operator<` together with `uid::operator==` is a strict total
order on the 16-byte values: for every pair exactly one of `a < b`, `b < a`,
`a == b` holds (the three indicators sum to 1), `<` is transitive (stated as
a boolean equation), and `==` coincides with equality of the raw 16-byte
content. -/
theorem uid_lt_strict_total_order (a b c : uid) :
    (uid.ltOp a b).toNat + (uid.ltOp b a).toNat + (uid.eqOp a b).toNat = 1 ∧
    (uid.ltOp a b && uid.ltOp b c && !(uid.ltOp a c)) = false ∧
    uid.eqOp a b = decide (a.bytes = b.bytes) := by
  refine ⟨?_, ?_, ?_⟩
  · unfold uid.ltOp uid.eqOp
    rcases lt_trichotomy (toSigned a.word0) (toSigned b.word0) with h0 | h0 | h0
    · simp [ne_of_lt h0, (ne_of_lt h0).symm, h0, not_lt_of_gt h0]
    · rcases lt_trichotomy (toSigned a.word1) (toSigned b.word1) with h1 | h1 | h1
      · simp [h0, h1, not_lt_of_gt h1, ne_of_lt h1]
      · simp [h0, h1, lt_irrefl]
      · simp [h0, h1, not_lt_of_gt h1, ne_of_gt h1]
    · simp [ne_of_gt h0, (ne_of_gt h0).symm, h0, not_lt_of_gt h0]
  · cases hab : uid.ltOp a b <;> cases hbc : uid.ltOp b c <;> simp
    exact uid_ltOp_trans hab hbc
  · by_cases hb : a.bytes = b.bytes
    · simp [hb, uid_eqOp_iff_bytes.mpr hb]
    · rw [decide_eq_false hb]
      cases he : uid.eqOp a b
      · rfl
      · exact absurd (uid_eqOp_iff_bytes.mp he) hb

/-- C8: the generic `eventBus::broadcast` makes exactly one call to the
abstract `broadcast`, with the id resolved from the event kind's static
`id()` and a holder whose `get` exposes the stored copy equal to the event
value; a typed handler's erased `handle(const void*)` on that pointer calls
the typed `handle` with a value equal to the one broadcast (erase-then-
downcast round-trip). -/
theorem broadcast_erase_downcast_roundtrip {α β : Type} (idOfKind : uid) (v : α)
    (bus : Nat) (self : Nat) (onEvent : α → β) :
    eventBus.broadcastTyped idOfKind v = [(idOfKind, ⟨v⟩)] ∧
    (eventBus.broadcastTyped idOfKind v).length = 1 ∧
    (typedEventHolder.mk v).get = v ∧
    (eventHandler.construct bus idOfKind onEvent self).1.handleErased
      (typedEventHolder.mk v).get = onEvent v :=
  ⟨rfl, rfl, rfl, rfl⟩

/-- C9: a typed `eventHandler` is bound to exactly one bus and one event
kind for its entire lifetime: construction subscribes it on the bound bus
under the kind's static id, destruction unsubscribes it on the same bus
under the same id, and the binding stored in the handler is exactly the
constructed pair — the reference member cannot be reseated and no operation
rebinds it. -/
theorem handler_binding_immutable {α β : Type} (bus : Nat) (idOfKind : uid)
    (onEvent : α → β) (self : Nat) :
    (eventHandler.construct bus idOfKind onEvent self).2 =
      busCall.subscribeCall bus idOfKind self ∧
    (eventHandler.construct bus idOfKind onEvent self).1.ebus = bus ∧
    (eventHandler.construct bus idOfKind onEvent self).1.kindId = idOfKind ∧
    eventHandler.destruct (eventHandler.construct bus idOfKind onEvent self).1
      self = busCall.unsubscribeCall bus idOfKind self :=
  ⟨rfl, rfl, rfl, rfl⟩

/-- C10: every operation on an empty handle is a safe no-op: a
default-constructed or moved-from owner has a null `life`, its destructor
performs no teardown and leaves the lock state untouched, and a guard
created through an observer chain rooted at such an empty owner is inert
(null conversion) with both its construction and destruction leaving the
lifeline state unchanged. -/
theorem empty_handles_noop (src : living_ptr) (s : lifeline) :
    living_ptr.default.hasLife = false ∧
    (living_ptr.moveCtor src).2.hasLife = false ∧
    living_ptr.dtor living_ptr.default s = some s ∧
    living_ptr.dtor (living_ptr.moveCtor src).2 s = some s ∧
    (holder_ptr.ctor
      (liveness_ptr.fromLiveness (liveness_ptr.fromLiving living_ptr.default)) s).2
      = s ∧
    (holder_ptr.ctor
      (liveness_ptr.fromLiveness (liveness_ptr.fromLiving living_ptr.default)) s).1.conv
      = none ∧
    holder_ptr.dtor (holder_ptr.ctor
      (liveness_ptr.fromLiveness (liveness_ptr.fromLiving living_ptr.default)) s).1 s
      = s :=
  ⟨rfl, rfl, rfl, rfl, rfl, rfl, rfl⟩

end Snail
